import Mathlib

/-!
# Dispatcher (`go/dispatcher/dispatcher/dispatcher.go`)

A shallow embedding of the dispatcher's server, connection, underlay wrapper and
throttled overflow logger, followed by theorems about them.

Conventions of the embedding.

* A Go `int`, `int64` or `time.Duration` is an `Int`; a `uint16`, `uint32` or `uint64` is a
  `Nat`, reduced `% 2^w` wherever the source converts or subtracts.
* A `[]byte` is a `List Byte`.  A sub-slice `p[k:]` shares its backing array with `p`, so a
  write through the sub-slice is written back into `p`.
* A Go panic (slice out of range, failed type assertion, nil dereference) is `none`.
* A call that leaves the file (metrics, logging, ring buffer, routing table, socket) is
  recorded as an event, and what it returns is an argument of the embedding.
-/

namespace Dispatcher

/-! ## Time -/

/-! A `time.Time` is an `Int`, the nanoseconds since the zero `Time`; a `time.Duration`
is an `Int` count of nanoseconds, in the signed 64-bit range. -/

/-- Smallest `time.Duration`. -/
def minDuration : Int := -(2 ^ 63)

/-- Largest `time.Duration`. -/
def maxDuration : Int := 2 ^ 63 - 1

/-- Go `Time.Sub`: the difference `t - u`, saturated to the range of `Duration`. -/
def timeSub (t u : Int) : Int :=
  if t - u < minDuration then minDuration
  else if maxDuration < t - u then maxDuration
  else t - u

/-- Go `time.Since(t)`, with the clock reading `now` made explicit. -/
def timeSince (now t : Int) : Int := timeSub now t

/-- The zero `time.Time`, the value of an unset `lastPrintTimestamp`. -/
def zeroTime : Int := 0

/-- One second as a `time.Duration`. -/
def Second : Int := 1000000000

/-- The minimum amount of time between two overflow logging messages. -/
def OverflowLoggingInterval : Int := 10 * Second

/-! ## Bytes and addresses -/

/-- One byte. -/
abbrev Byte := Fin 256

/-- Go `byte(v)`: the low eight bits. -/
def byteOf (v : Nat) : Byte := ⟨v % 256, Nat.mod_lt _ (by decide)⟩

/-- A `[4]byte` array. -/
structure Byte4 where
  b0 : Byte
  b1 : Byte
  b2 : Byte
  b3 : Byte
deriving DecidableEq, Repr

/-- The slice `a[:]` of a `[4]byte` array. -/
def Byte4.toList (a : Byte4) : List Byte := [a.b0, a.b1, a.b2, a.b3]

/-- Go `net.UDPAddr`. -/
structure UDPAddr where
  IP : List Byte
  Port : Int
  Zone : String
deriving DecidableEq, Repr

/-- A `net.Addr` interface value: the nil interface, or one holding a `*net.UDPAddr`
(which may itself be a nil pointer). -/
inductive NetAddr where
  | nil
  | udp (a : Option UDPAddr)
deriving DecidableEq, Repr

/-- A Go `error` value that is not nil. -/
structure GoError where
  msg : String
deriving DecidableEq, Repr

/-! ## Socket metadata -/

/-- A kernel or hardware timestamp (`Timespec`): two `int64`. -/
structure Timespec where
  Sec : Int
  Nsec : Int
deriving DecidableEq, Repr

/-- The `Inet4Pktinfo` control message. -/
structure Inet4Pktinfo where
  Ifindex : Int
  Spec_dst : Byte4
  Addr : Byte4
deriving DecidableEq, Repr

/-- The fields of `conn.ReadMeta` the dispatcher reads.  `RcvOvfl` is a `uint32`. -/
structure ReadMeta where
  Src : Option UDPAddr
  RcvOvfl : Nat
  KernelTS : Timespec
  HwTS : Timespec
  InterfaceId : Int
  PktLengthL2 : Int
  Ipi : Inet4Pktinfo
deriving DecidableEq, Repr

/-! ## throttledMetaLogger -/

/-- What `Handle` does outside its own state: a call of `NetReadOverflows().Add(x)`
or of `Logger.Debug("Detected socket overflow", "total_cnt", total)`.  The argument of
`Add` is the `uint32` that the source converts with `float64`, a conversion that is exact. -/
inductive LoggerEffect where
  | metricAdd (x : Nat)
  | logDebug (total : Nat)
deriving DecidableEq, Repr

/-- The state of a `throttledMetaLogger` (the mutex makes `Handle` atomic). -/
structure throttledMetaLogger where
  MinInterval : Int
  lastPrintTimestamp : Int
  lastPrintValue : Nat
deriving DecidableEq, Repr

/-- Subtraction of two `uint32`. -/
def subUint32 (a b : Nat) : Nat := (a + 2 ^ 32 - b % 2 ^ 32) % 2 ^ 32

/-- The method `throttledMetaLogger.Handle`.  `tSince` is the clock reading taken by
`time.Since`, `tNow` the one taken by `time.Now()` inside the branch. -/
def throttledMetaLogger.Handle (p : throttledMetaLogger) (m : ReadMeta)
    (tSince tNow : Int) : throttledMetaLogger × List LoggerEffect :=
  if m.RcvOvfl ≠ p.lastPrintValue ∧ timeSince tSince p.lastPrintTimestamp > p.MinInterval then
    let add :=
      if m.RcvOvfl > p.lastPrintValue then
        LoggerEffect.metricAdd (subUint32 m.RcvOvfl p.lastPrintValue)
      else
        LoggerEffect.metricAdd m.RcvOvfl
    ({ p with lastPrintTimestamp := tNow, lastPrintValue := m.RcvOvfl },
      [add, LoggerEffect.logDebug m.RcvOvfl])
  else
    (p, [])

/-- The logger `NewServer` creates. -/
def newMetaLogger : throttledMetaLogger :=
  { MinInterval := OverflowLoggingInterval, lastPrintTimestamp := zeroTime, lastPrintValue := 0 }

/-- A fresh logger with an arbitrary interval. -/
def freshLogger (minInterval : Int) : throttledMetaLogger :=
  { MinInterval := minInterval, lastPrintTimestamp := zeroTime, lastPrintValue := 0 }

/-- The total that a list of effects adds to the read-overflow metric. -/
def metricTotal : List LoggerEffect → Nat
  | [] => 0
  | LoggerEffect.metricAdd x :: es => x + metricTotal es
  | LoggerEffect.logDebug _ :: es => metricTotal es

/-- Whether a list of effects holds a logging message. -/
def hasLog : List LoggerEffect → Bool
  | [] => false
  | LoggerEffect.metricAdd _ :: es => hasLog es
  | LoggerEffect.logDebug _ :: _ => true

/-- One call of `Handle`: the metadata and the two clock readings. -/
structure HandleCall where
  m : ReadMeta
  tSince : Int
  tNow : Int
deriving DecidableEq, Repr

/-- A sequence of `Handle` calls on one logger: the final state and all effects in order. -/
def runHandle (p : throttledMetaLogger) : List HandleCall → throttledMetaLogger × List LoggerEffect
  | [] => (p, [])
  | c :: cs =>
    let r := p.Handle c.m c.tSince c.tNow
    let rest := runHandle r.1 cs
    (rest.1, r.2 ++ rest.2)

/-- Metadata that carries only an overflow reading. -/
def metaOfOverflow (v : Nat) : ReadMeta :=
  { Src := none, RcvOvfl := v, KernelTS := ⟨0, 0⟩, HwTS := ⟨0, 0⟩, InterfaceId := 0,
    PktLengthL2 := 0, Ipi := ⟨0, ⟨0, 0, 0, 0⟩, ⟨0, 0, 0, 0⟩⟩ }

/-! ## encoding/binary and slices -/

/-- Go `uint64(x)` of a signed integer. -/
def toUint64 (x : Int) : Nat := (x % 2 ^ 64).toNat

/-- Go `uint32(x)` of an integer. -/
def toUint32 (x : Int) : Nat := (x % 2 ^ 32).toNat

/-- Go `uint16(x)` of an integer. -/
def toUint16 (x : Int) : Nat := (x % 2 ^ 16).toNat

/-- The eight bytes `byte(v), byte(v >> 8), ..., byte(v >> 56)`. -/
def uint64Bytes (v : Nat) : List Byte :=
  [byteOf v, byteOf (v >>> 8), byteOf (v >>> 16), byteOf (v >>> 24),
   byteOf (v >>> 32), byteOf (v >>> 40), byteOf (v >>> 48), byteOf (v >>> 56)]

/-- The four bytes `byte(v), byte(v >> 8), byte(v >> 16), byte(v >> 24)`. -/
def uint32Bytes (v : Nat) : List Byte :=
  [byteOf v, byteOf (v >>> 8), byteOf (v >>> 16), byteOf (v >>> 24)]

/-- Go `binary.LittleEndian.PutUint64(b, v)`: panics when `b` is shorter than 8 bytes
(the bounds check `_ = b[7]`), else overwrites `b[0..8)`. -/
def PutUint64 (b : List Byte) (v : Nat) : Option (List Byte) :=
  if b.length < 8 then none else some (uint64Bytes v ++ b.drop 8)

/-- Go `binary.LittleEndian.PutUint32(b, v)`: panics when `b` is shorter than 4 bytes,
else overwrites `b[0..4)`. -/
def PutUint32 (b : List Byte) (v : Nat) : Option (List Byte) :=
  if b.length < 4 then none else some (uint32Bytes v ++ b.drop 4)

/-- Go builtin `copy(dst, src)`: overwrites the first `min(len(dst), len(src))` bytes of
`dst`; never panics. -/
def copyBytes (dst src : List Byte) : List Byte :=
  src.take dst.length ++ dst.drop (min dst.length src.length)

/-- The slice expression `p[k:]`: panics unless `0 ≤ k ≤ len(p)`. -/
def sliceFrom (p : List Byte) (k : Int) : Option (List Byte) :=
  if 0 ≤ k ∧ k ≤ p.length then some (p.drop k.toNat) else none

/-- Run `f` on the sub-slice `p[k:]` and write its result back into `p`. -/
def onSliceFrom (p : List Byte) (k : Int) (f : List Byte → Option (List Byte)) :
    Option (List Byte) :=
  match sliceFrom p k with
  | none => none
  | some b =>
    match f b with
    | none => none
    | some b' => some (p.take k.toNat ++ b')

/-- Little-endian value of a byte string (the inverse of `PutUint64` and `PutUint32`). -/
def leDecode : List Byte → Nat
  | [] => 0
  | b :: bs => b.val + 256 * leDecode bs

/-- The Go slice `p[lo:hi]`, for in-range bounds. -/
def window (p : List Byte) (lo hi : Nat) : List Byte := (p.drop lo).take (hi - lo)

/-! ## underlayConnWrapper -/

/-- What `o.Conn.Read(p)` returned: the count, the metadata pointer, the error, and the
contents of `p` after the read. -/
structure ConnRead where
  n : Int
  m : Option ReadMeta
  err : Option GoError
  p : List Byte
deriving DecidableEq, Repr

/-- The outcome of `underlayConnWrapper.ReadFrom`: the three results, the buffer `p`
afterwards, the calls made to `Handler.Handle`, and the `log.Error` calls `(n, len(p))`. -/
structure ReadFromResult where
  n : Int
  addr : NetAddr
  err : Option GoError
  p : List Byte
  handled : List ReadMeta
  errorLogs : List (Int × Nat)
deriving DecidableEq, Repr

/-- The nine writes of the timestamp metadata after the payload, in source order. -/
def writeMeta (p : List Byte) (n : Int) (m : ReadMeta) : Option (List Byte) := do
  let p ← onSliceFrom p n (fun b => PutUint64 b (toUint64 m.KernelTS.Sec))
  let p ← onSliceFrom p (n + 8) (fun b => PutUint64 b (toUint64 m.KernelTS.Nsec))
  let p ← onSliceFrom p (n + 16) (fun b => PutUint64 b (toUint64 m.HwTS.Sec))
  let p ← onSliceFrom p (n + 24) (fun b => PutUint64 b (toUint64 m.HwTS.Nsec))
  let p ← onSliceFrom p (n + 32) (fun b => PutUint32 b (toUint32 m.InterfaceId))
  let p ← onSliceFrom p (n + 36) (fun b => PutUint32 b (toUint32 m.PktLengthL2))
  let p ← onSliceFrom p (n + 40) (fun b => PutUint32 b (toUint32 m.Ipi.Ifindex))
  let p ← onSliceFrom p (n + 44) (fun b => some (copyBytes b m.Ipi.Spec_dst.toList))
  onSliceFrom p (n + 48) (fun b => some (copyBytes b m.Ipi.Addr.toList))

/-- The method `underlayConnWrapper.ReadFrom`, given what the wrapped `Conn.Read` returned.
The result is `none` when the source panics. -/
def underlayConnWrapper.ReadFrom (rd : ConnRead) : Option ReadFromResult :=
  match rd.m with
  | none =>
    some { n := rd.n, addr := NetAddr.nil, err := rd.err, p := rd.p,
           handled := [], errorLogs := [] }
  | some m =>
    if rd.n + 52 < rd.p.length then
      match writeMeta rd.p rd.n m with
      | none => none
      | some p' =>
        some { n := rd.n, addr := NetAddr.udp m.Src, err := rd.err, p := p',
               handled := [m], errorLogs := [] }
    else
      some { n := rd.n, addr := NetAddr.udp m.Src, err := rd.err, p := rd.p,
             handled := [m], errorLogs := [(rd.n, rd.p.length)] }

/-- The 52 bytes of timestamp metadata in the layout of `ReadFrom`. -/
def metaBytes (m : ReadMeta) : List Byte :=
  uint64Bytes (toUint64 m.KernelTS.Sec) ++ uint64Bytes (toUint64 m.KernelTS.Nsec) ++
  uint64Bytes (toUint64 m.HwTS.Sec) ++ uint64Bytes (toUint64 m.HwTS.Nsec) ++
  uint32Bytes (toUint32 m.InterfaceId) ++ uint32Bytes (toUint32 m.PktLengthL2) ++
  uint32Bytes (toUint32 m.Ipi.Ifindex) ++ m.Ipi.Spec_dst.toList ++ m.Ipi.Addr.toList

/-! ## Packets and SCMP -/

/-- The layer-4 kind a packet was parsed as (`pkt.L4`, a `gopacket.LayerType`). -/
inductive LayerType where
  | zero
  | udp
  | scmp
  | other (code : Nat)
deriving DecidableEq, Repr

/-- The constant `slayers.LayerTypeSCMP`. -/
def LayerTypeSCMP : LayerType := LayerType.scmp

/-- The constant `slayers.SCMPTypeEchoRequest` (SCMP informational message 128). -/
def SCMPTypeEchoRequest : Nat := 128

/-- The constant `slayers.SCMPTypeEchoReply`. -/
def SCMPTypeEchoReply : Nat := 129

/-- The constant `slayers.SCMPTypeTracerouteRequest`. -/
def SCMPTypeTracerouteRequest : Nat := 130

/-- The constant `slayers.SCMPTypeTracerouteReply`. -/
def SCMPTypeTracerouteReply : Nat := 131

/-- The SCMP layer of a packet: its 16-bit type code and the rest of the message. -/
structure SCMP where
  TypeCode : Nat
  body : List Byte
deriving DecidableEq, Repr

/-- The method `SCMPTypeCode.Type()`: the high byte of the type code. -/
def SCMP.typeOf (s : SCMP) : Nat := (s.TypeCode >>> 8) % 256

/-- The fields of `respool.Packet` the dispatcher reads. -/
structure Packet where
  UnderlayRemote : Option UDPAddr
  L4 : LayerType
  SCMP : SCMP
  buffer : List Byte
deriving DecidableEq, Repr

/-- A registration reference: its bound address, its service address, and what
`RegisterID` answers for each identifier (`none` is a nil error). -/
structure RegReference where
  UDPAddr : Option UDPAddr
  SVCAddr : Nat
  RegisterID : Nat → Option GoError

/-- Go `uint64(id)` of an unsigned integer. -/
def zeroExtend64 (id : Nat) : Nat := id % 2 ^ 64

/-- The outcome of `registerIfSCMPInfo`: the returned error and the identifiers passed
to `RegisterID`, in order. -/
structure RegisterOutcome where
  err : Option GoError
  registered : List Nat
deriving DecidableEq, Repr

/-- The function `registerIfSCMPInfo`.  `extract` stands for `extractSCMPIdentifier`,
which returns a `uint16` identifier or an error. -/
def registerIfSCMPInfo (extract : SCMP → Except GoError Nat) (ref : RegReference)
    (pkt : Packet) : RegisterOutcome :=
  if pkt.L4 ≠ LayerTypeSCMP then
    { err := none, registered := [] }
  else
    let t := pkt.SCMP.typeOf
    if t ≠ SCMPTypeEchoRequest ∧ t ≠ SCMPTypeTracerouteRequest then
      { err := none, registered := [] }
    else
      match extract pkt.SCMP with
      | Except.error e => { err := some e, registered := [] }
      | Except.ok id =>
        { err := ref.RegisterID (zeroExtend64 id), registered := [zeroExtend64 id] }

/-! ## Conn -/

/-- A `net.PacketConn` of the server, by identity (its file descriptor). -/
structure PacketConn where
  fd : Nat
deriving DecidableEq, Repr

/-- A connection bound to a SCION port or SVC: the socket it sends on, the ring it
reads from (by identity), and its registration reference. -/
structure Conn where
  conn : PacketConn
  ring : Nat
  regReference : RegReference

/-- The calls a `Conn` makes outside the file, in program order. -/
inductive ConnEvent where
  | registerID (id : Nat)
  | sendOnConn (c : PacketConn) (pkt : Packet) (address : NetAddr)
  | ringRead (ring : Nat) (blocking : Bool)
  | copyTo (pkt : Packet)
  | free (pkt : Packet)
deriving DecidableEq, Repr

/-- The outcome of `Conn.Write`. -/
structure WriteResult where
  n : Int
  err : Option GoError
  events : List ConnEvent
deriving DecidableEq, Repr

/-- The method `Conn.Write`.  `send c pkt a` is what `pkt.SendOnConn(c, a)` returns. -/
def Conn.Write (extract : SCMP → Except GoError Nat)
    (send : PacketConn → Packet → NetAddr → Int × Option GoError)
    (ac : Conn) (pkt : Packet) : WriteResult :=
  let reg := registerIfSCMPInfo extract ac.regReference pkt
  let r := send ac.conn pkt (NetAddr.udp pkt.UnderlayRemote)
  { n := r.1, err := r.2,
    events := reg.registered.map ConnEvent.registerID ++
      [ConnEvent.sendOnConn ac.conn pkt (NetAddr.udp pkt.UnderlayRemote)] }

/-- What `ring.Read(entries, true)` returned: the count, and `entries[0]` afterwards when
it holds a `*respool.Packet` (`none` for any other interface value). -/
structure RingRead where
  n : Int
  entry : Option Packet
deriving DecidableEq, Repr

/-- The method `Conn.Read`: the outer `none` is a panic of the type assertion, the inner
`none` is the nil packet. -/
def Conn.Read (rr : RingRead) : Option (Option Packet) :=
  if rr.n < 0 then some none
  else
    match rr.entry with
    | none => none
    | some pkt => some (some pkt)

/-- The outcome of `Conn.ReadFrom`: the three results, the buffer afterwards and the
calls made. -/
structure ConnReadFromResult where
  n : Int
  addr : NetAddr
  err : Option GoError
  p : List Byte
  events : List ConnEvent
deriving DecidableEq, Repr

/-- The method `Conn.ReadFrom`.  `copyTo pkt p` is what `pkt.CopyTo(p)` returns together
with the contents of `p` afterwards. -/
def Conn.ReadFrom (copyTo : Packet → List Byte → Int × List Byte) (ac : Conn)
    (rr : RingRead) (p : List Byte) : Option ConnReadFromResult :=
  match Conn.Read rr with
  | none => none
  | some none =>
    some { n := 0, addr := NetAddr.nil, err := some ⟨"Connection closed"⟩, p := p,
           events := [ConnEvent.ringRead ac.ring true] }
  | some (some pkt) =>
    let c := copyTo pkt p
    some { n := c.1, addr := NetAddr.udp pkt.UnderlayRemote, err := none, p := c.2,
           events := [ConnEvent.ringRead ac.ring true, ConnEvent.copyTo pkt,
                      ConnEvent.free pkt] }

/-- The method `Conn.LocalAddr`. -/
def Conn.LocalAddr (ac : Conn) : NetAddr := NetAddr.udp ac.regReference.UDPAddr

/-- How often a packet is released in a list of events. -/
def freeCount (pkt : Packet) (es : List ConnEvent) : Nat :=
  es.count (ConnEvent.free pkt)

/-! ## Server -/

/-- Go `isZeros`. -/
def isZeros (bs : List Byte) : Bool := bs.all (fun b => b == 0)

/-- Go `net.IP.To4`: the 4-byte form of an IPv4 address, `none` (nil) for anything else. -/
def To4 (ip : List Byte) : Option (List Byte) :=
  if ip.length = 4 then some ip
  else if ip.length = 16 ∧ isZeros (ip.take 10) ∧ ip.get? 10 = some 255 ∧ ip.get? 11 = some 255 then
    some ((ip.drop 12).take 4)
  else none

/-- A routing-table entry: the ring its application reads from (by identity). -/
structure TableEntry where
  appIngressRing : Nat
deriving DecidableEq, Repr

/-- The arguments of a call of `routingTable.Register`. -/
structure RegisterCall where
  ia : Nat
  address : Option UDPAddr
  svc : Nat
  entry : TableEntry
deriving DecidableEq, Repr

/-- The server: its routing table, as what `Register` answers for each call, and its
two underlay sockets. -/
structure Server where
  routingTable : RegisterCall → Except GoError RegReference
  ipv4Conn : PacketConn
  ipv6Conn : PacketConn

/-- The outcome of `Server.Register`: the connection (`none` is nil), the port, the
error, and the call made to the routing table. -/
structure RegisterResult where
  conn : Option Conn
  port : Nat
  err : Option GoError
  call : RegisterCall

/-- The method `Server.Register`.  `tableEntry` is what `newTableEntry()` returned; the
result is `none` when the source dereferences a nil pointer. -/
def Server.Register (s : Server) (ia : Nat) (address : Option UDPAddr) (svc : Nat)
    (tableEntry : TableEntry) : Option RegisterResult :=
  let call : RegisterCall := { ia := ia, address := address, svc := svc, entry := tableEntry }
  match s.routingTable call with
  | Except.error e => some { conn := none, port := 0, err := some e, call := call }
  | Except.ok ref =>
    match address with
    | none => none
    | some a =>
      let ovConn := if To4 a.IP = none then s.ipv6Conn else s.ipv4Conn
      let conn : Conn := { conn := ovConn, ring := tableEntry.appIngressRing, regReference := ref }
      match ref.UDPAddr with
      | none => none
      | some la => some { conn := some conn, port := toUint16 la.Port, err := none, call := call }

/-- A server over two distinct sockets. -/
def newServer (table : RegisterCall → Except GoError RegReference) : Server :=
  { routingTable := table, ipv4Conn := ⟨4⟩, ipv6Conn := ⟨6⟩ }

/-! ## Sample inputs -/

/-- Four calls with the non-decreasing readings 2, 2, 7, 9 at 11 s, 12 s, 30 s and 31 s. -/
def sampleCalls : List HandleCall :=
  [⟨metaOfOverflow 2, 11 * Second, 11 * Second⟩, ⟨metaOfOverflow 2, 12 * Second, 12 * Second⟩,
   ⟨metaOfOverflow 7, 30 * Second, 30 * Second⟩, ⟨metaOfOverflow 9, 31 * Second, 31 * Second⟩]

/-- Metadata with a distinct value in every field. -/
def sampleMeta : ReadMeta :=
  { Src := some ⟨[10, 0, 0, 1], 30041, ""⟩, RcvOvfl := 0, KernelTS := ⟨1, 2⟩, HwTS := ⟨3, 4⟩,
    InterfaceId := 5, PktLengthL2 := 6, Ipi := ⟨7, ⟨10, 0, 0, 1⟩, ⟨10, 0, 0, 2⟩⟩ }

/-- A read of a 2-byte payload into a 55-byte buffer: one byte more than payload plus
metadata. -/
def roomyRead : ConnRead :=
  { n := 2, m := some sampleMeta, err := none, p := [170, 187] ++ List.replicate 53 0 }

/-- A read of an empty payload into a 52-byte buffer: exactly the room the metadata needs. -/
def tightRead : ConnRead :=
  { n := 0, m := some sampleMeta, err := none, p := List.replicate 52 0 }

/-- An SCMP echo request (type 128, code 0). -/
def echoRequestPacket : Packet :=
  { UnderlayRemote := some ⟨[10, 0, 0, 9], 30041, ""⟩, L4 := LayerType.scmp,
    SCMP := { TypeCode := 128 * 256, body := [1, 44] }, buffer := [1, 2, 3] }

/-- An extraction that reads the identifier from the first two bytes of the body. -/
def sampleExtract (s : SCMP) : Except GoError Nat :=
  match s.body with
  | hi :: lo :: _ => Except.ok (hi.val * 256 + lo.val)
  | _ => Except.error ⟨"invalid SCMP info message"⟩

/-- A reference whose registration has been released: `RegisterID` always fails. -/
def releasedRef : RegReference :=
  { UDPAddr := some ⟨[10, 0, 0, 1], 40000, ""⟩, SVCAddr := 0,
    RegisterID := fun _ => some ⟨"registration already removed"⟩ }

/-- A connection on the IPv4 socket reading from ring 7. -/
def sampleConn : Conn := { conn := ⟨4⟩, ring := 7, regReference := releasedRef }

/-- A `CopyTo` that copies the packet buffer to the front of `p`. -/
def sampleCopyTo (pkt : Packet) (p : List Byte) : Int × List Byte :=
  (pkt.buffer.length, copyBytes p pkt.buffer)

/-- A routing table that binds every registration to port 40000 of the requested IP. -/
def sampleTable (c : RegisterCall) : Except GoError RegReference :=
  match c.address with
  | none => Except.error ⟨"nil public address"⟩
  | some a =>
    Except.ok { UDPAddr := some ⟨a.IP, 40000, ""⟩, SVCAddr := c.svc, RegisterID := fun _ => none }

/-! # Theorems -/

/-! ## throttledMetaLogger.Handle -/

theorem timeSince_gt_imp (now t : Int) (d : Int) (hd : minDuration ≤ d)
    (h : timeSince now t > d) : d < now - t := by
  unfold timeSince timeSub at h
  unfold minDuration at hd
  unfold minDuration maxDuration at h
  split_ifs at h <;> omega

theorem Handle_eq_of_cond (p : throttledMetaLogger) (m : ReadMeta) (tSince tNow : Int)
    (h : m.RcvOvfl ≠ p.lastPrintValue ∧ timeSince tSince p.lastPrintTimestamp > p.MinInterval) :
    p.Handle m tSince tNow =
      ({ p with lastPrintTimestamp := tNow, lastPrintValue := m.RcvOvfl },
        [if m.RcvOvfl > p.lastPrintValue then
            LoggerEffect.metricAdd (subUint32 m.RcvOvfl p.lastPrintValue)
          else LoggerEffect.metricAdd m.RcvOvfl,
         LoggerEffect.logDebug m.RcvOvfl]) := by
  unfold throttledMetaLogger.Handle
  rw [if_pos h]

theorem Handle_eq_of_not_cond (p : throttledMetaLogger) (m : ReadMeta) (tSince tNow : Int)
    (h : ¬ (m.RcvOvfl ≠ p.lastPrintValue ∧
      timeSince tSince p.lastPrintTimestamp > p.MinInterval)) :
    p.Handle m tSince tNow = (p, []) := by
  unfold throttledMetaLogger.Handle
  rw [if_neg h]

theorem hasLog_Handle_iff (p : throttledMetaLogger) (m : ReadMeta) (tSince tNow : Int) :
    hasLog (p.Handle m tSince tNow).2 = true ↔
      (m.RcvOvfl ≠ p.lastPrintValue ∧
        timeSince tSince p.lastPrintTimestamp > p.MinInterval) := by
  by_cases h : m.RcvOvfl ≠ p.lastPrintValue ∧
      timeSince tSince p.lastPrintTimestamp > p.MinInterval
  · rw [Handle_eq_of_cond p m tSince tNow h]
    refine ⟨fun _ => h, fun _ => ?_⟩
    split_ifs <;> simp [hasLog]
  · rw [Handle_eq_of_not_cond p m tSince tNow h]
    refine ⟨fun hl => ?_, fun hc => absurd hc h⟩
    simp [hasLog] at hl

theorem subUint32_of_lt (a b : Nat) (ha : a < 2 ^ 32) (hb : b < a) :
    subUint32 a b = a - b := by
  unfold subUint32
  have h1 : b % 2 ^ 32 = b := Nat.mod_eq_of_lt (by omega)
  rw [h1]
  omega

/-- C1: `Handle` logs, adds to the read-overflow metric and updates its state only when
`m.RcvOvfl` differs from `lastPrintValue` and at least `MinInterval` has elapsed since
`lastPrintTimestamp` (the source tests `time.Since(..) > MinInterval`); in every other
case it calls neither the metric nor the logger and leaves `lastPrintValue` and
`lastPrintTimestamp` unchanged.  When it acts it does all three together, and it acts
exactly when the source's condition holds. -/
theorem Handle_acts_only_when_changed_and_interval_elapsed
    (p : throttledMetaLogger) (m : ReadMeta) (tSince tNow : Int)
    (hMin : minDuration ≤ p.MinInterval ∧ p.MinInterval ≤ maxDuration) :
    ((p.Handle m tSince tNow).2 ≠ [] ∨ (p.Handle m tSince tNow).1 ≠ p →
        m.RcvOvfl ≠ p.lastPrintValue ∧ p.MinInterval ≤ tSince - p.lastPrintTimestamp) ∧
    (¬ (m.RcvOvfl ≠ p.lastPrintValue ∧ p.MinInterval ≤ tSince - p.lastPrintTimestamp) →
        (p.Handle m tSince tNow).2 = [] ∧
        metricTotal (p.Handle m tSince tNow).2 = 0 ∧
        hasLog (p.Handle m tSince tNow).2 = false ∧
        (p.Handle m tSince tNow).1.lastPrintValue = p.lastPrintValue ∧
        (p.Handle m tSince tNow).1.lastPrintTimestamp = p.lastPrintTimestamp ∧
        (p.Handle m tSince tNow).1 = p) ∧
    ((p.Handle m tSince tNow).2 ≠ [] →
        (∃ x, (p.Handle m tSince tNow).2 =
          [LoggerEffect.metricAdd x, LoggerEffect.logDebug m.RcvOvfl]) ∧
        (p.Handle m tSince tNow).1 =
          { p with lastPrintTimestamp := tNow, lastPrintValue := m.RcvOvfl }) ∧
    ((p.Handle m tSince tNow).2 ≠ [] ↔
        (m.RcvOvfl ≠ p.lastPrintValue ∧
          timeSince tSince p.lastPrintTimestamp > p.MinInterval)) := by
  by_cases h : m.RcvOvfl ≠ p.lastPrintValue ∧
      timeSince tSince p.lastPrintTimestamp > p.MinInterval
  · have hlt := timeSince_gt_imp tSince p.lastPrintTimestamp p.MinInterval hMin.1 h.2
    have hA : m.RcvOvfl ≠ p.lastPrintValue ∧ p.MinInterval ≤ tSince - p.lastPrintTimestamp :=
      ⟨h.1, le_of_lt hlt⟩
    rw [Handle_eq_of_cond p m tSince tNow h]
    refine ⟨fun _ => hA, fun hn => absurd hA hn, fun _ => ⟨?_, rfl⟩,
      fun _ => h, fun _ => List.cons_ne_nil _ _⟩
    split_ifs
    · exact ⟨_, rfl⟩
    · exact ⟨_, rfl⟩
  · rw [Handle_eq_of_not_cond p m tSince tNow h]
    refine ⟨?_, fun _ => ⟨rfl, rfl, rfl, rfl, rfl, rfl⟩, fun hne => absurd rfl hne,
      fun hne => absurd rfl hne, fun hc => absurd hc h⟩
    rintro (h1 | h1)
    · exact absurd rfl h1
    · exact absurd rfl h1

/-- Witness for C1: the logger of `NewServer`, a first overflow reading of 3 at eleven
seconds after the zero time. -/
theorem Handle_acts_only_when_changed_and_interval_elapsed_witness :
    (minDuration ≤ newMetaLogger.MinInterval ∧ newMetaLogger.MinInterval ≤ maxDuration) ∧
    (newMetaLogger.Handle (metaOfOverflow 3) (11 * Second) (11 * Second)).2 =
      [LoggerEffect.metricAdd 3, LoggerEffect.logDebug 3] ∧
    ((3 : Nat) ≠ newMetaLogger.lastPrintValue ∧
      newMetaLogger.MinInterval ≤ 11 * Second - newMetaLogger.lastPrintTimestamp) :=
  ⟨by decide, by decide,
    (Handle_acts_only_when_changed_and_interval_elapsed newMetaLogger (metaOfOverflow 3)
      (11 * Second) (11 * Second) (by decide)).1 (Or.inl (by decide))⟩

/-- C2: when `Handle` logs, the amount added to the read-overflow metric is exactly
`m.RcvOvfl - lastPrintValue` (no 32-bit wrap-around) if `m.RcvOvfl` is greater than
`lastPrintValue`, and exactly the raw `m.RcvOvfl` if it is smaller; afterwards
`lastPrintValue` equals `m.RcvOvfl`. -/
theorem Handle_adds_delta_or_raw_value
    (p : throttledMetaLogger) (m : ReadMeta) (tSince tNow : Int)
    (hm : m.RcvOvfl < 2 ^ 32)
    (hlog : hasLog (p.Handle m tSince tNow).2 = true) :
    (p.lastPrintValue < m.RcvOvfl →
        (p.Handle m tSince tNow).2 =
          [LoggerEffect.metricAdd (m.RcvOvfl - p.lastPrintValue),
           LoggerEffect.logDebug m.RcvOvfl] ∧
        metricTotal (p.Handle m tSince tNow).2 = m.RcvOvfl - p.lastPrintValue) ∧
    (m.RcvOvfl < p.lastPrintValue →
        (p.Handle m tSince tNow).2 =
          [LoggerEffect.metricAdd m.RcvOvfl, LoggerEffect.logDebug m.RcvOvfl] ∧
        metricTotal (p.Handle m tSince tNow).2 = m.RcvOvfl) ∧
    (p.Handle m tSince tNow).1.lastPrintValue = m.RcvOvfl := by
  have h := (hasLog_Handle_iff p m tSince tNow).1 hlog
  rw [Handle_eq_of_cond p m tSince tNow h]
  refine ⟨fun hgt => ?_, fun hlt => ?_, rfl⟩
  · have hs := subUint32_of_lt m.RcvOvfl p.lastPrintValue hm hgt
    simp only [gt_iff_lt, hgt, if_true, hs, metricTotal, and_self, Nat.add_zero]
  · have hn : ¬ (m.RcvOvfl > p.lastPrintValue) := by omega
    simp only [hn, if_false, metricTotal, and_self, Nat.add_zero]

/-- Witness for C2: a logger that last printed 5 sees 9 (delta 4 is added). -/
theorem Handle_adds_delta_or_raw_value_witness :
    (({ MinInterval := OverflowLoggingInterval, lastPrintTimestamp := 0,
        lastPrintValue := 5 } : throttledMetaLogger).Handle
      (metaOfOverflow 9) (20 * Second) (20 * Second)).2 =
      [LoggerEffect.metricAdd 4, LoggerEffect.logDebug 9] :=
  ((Handle_adds_delta_or_raw_value
      { MinInterval := OverflowLoggingInterval, lastPrintTimestamp := 0, lastPrintValue := 5 }
      (metaOfOverflow 9) (20 * Second) (20 * Second)
      (by decide) (by decide)).1 (by decide)).1

theorem metricTotal_append (a b : List LoggerEffect) :
    metricTotal (a ++ b) = metricTotal a + metricTotal b := by
  induction a with
  | nil => simp [metricTotal]
  | cons e es ih =>
    cases e with
    | metricAdd x =>
      show x + metricTotal (es ++ b) = x + metricTotal es + metricTotal b
      rw [ih]; omega
    | logDebug t =>
      show metricTotal (es ++ b) = metricTotal es + metricTotal b
      exact ih

theorem Handle_step_total (p : throttledMetaLogger) (m : ReadMeta) (tSince tNow : Int)
    (hle : p.lastPrintValue ≤ m.RcvOvfl) (hm : m.RcvOvfl < 2 ^ 32) :
    metricTotal (p.Handle m tSince tNow).2 + p.lastPrintValue =
        (p.Handle m tSince tNow).1.lastPrintValue ∧
    ((p.Handle m tSince tNow).1.lastPrintValue = p.lastPrintValue ∨
      (p.Handle m tSince tNow).1.lastPrintValue = m.RcvOvfl) := by
  by_cases h : m.RcvOvfl ≠ p.lastPrintValue ∧
      timeSince tSince p.lastPrintTimestamp > p.MinInterval
  · rw [Handle_eq_of_cond p m tSince tNow h]
    have hgt : m.RcvOvfl > p.lastPrintValue := by
      have := h.1
      omega
    have hs := subUint32_of_lt m.RcvOvfl p.lastPrintValue hm hgt
    simp only [hgt, if_true, hs, metricTotal, or_true, and_true]
    omega
  · rw [Handle_eq_of_not_cond p m tSince tNow h]
    simp [metricTotal]

theorem runHandle_total (calls : List HandleCall) :
    ∀ p : throttledMetaLogger,
      (∀ c ∈ calls, p.lastPrintValue ≤ c.m.RcvOvfl) →
      calls.Pairwise (fun a b => a.m.RcvOvfl ≤ b.m.RcvOvfl) →
      (∀ c ∈ calls, c.m.RcvOvfl < 2 ^ 32) →
      metricTotal (runHandle p calls).2 + p.lastPrintValue =
          (runHandle p calls).1.lastPrintValue ∧
      ((runHandle p calls).1.lastPrintValue = p.lastPrintValue ∨
        ∃ c ∈ calls, (runHandle p calls).1.lastPrintValue = c.m.RcvOvfl) := by
  induction calls with
  | nil =>
    intro p _ _ _
    simp [runHandle, metricTotal]
  | cons c cs ih =>
    intro p hlow hpw hrange
    have hc := Handle_step_total p c.m c.tSince c.tNow
      (hlow c (List.mem_cons_self _ _)) (hrange c (List.mem_cons_self _ _))
    rw [List.pairwise_cons] at hpw
    have hlow' : ∀ d ∈ cs,
        (p.Handle c.m c.tSince c.tNow).1.lastPrintValue ≤ d.m.RcvOvfl := by
      intro d hd
      rcases hc.2 with h1 | h1
      · rw [h1]; exact hlow d (List.mem_cons_of_mem _ hd)
      · rw [h1]; exact hpw.1 d hd
    have hrec := ih (p.Handle c.m c.tSince c.tNow).1 hlow' hpw.2
      (fun d hd => hrange d (List.mem_cons_of_mem _ hd))
    simp only [runHandle, metricTotal_append]
    refine ⟨by omega, ?_⟩
    rcases hrec.2 with h2 | ⟨d, hd, h2⟩
    · rcases hc.2 with h1 | h1
      · left; rw [h2, h1]
      · right; exact ⟨c, List.mem_cons_self _ _, by rw [h2, h1]⟩
    · right; exact ⟨d, List.mem_cons_of_mem _ hd, h2⟩

/-- C10: starting from a fresh logger, for every finite sequence of `Handle` calls at
arbitrary times whose overflow readings are non-decreasing, after each call (after the
first `k + 1` calls, for every `k`) the cumulative amount added to the read-overflow
metric equals `lastPrintValue`, and does not exceed the most recent reading. -/
theorem metric_total_eq_lastPrintValue (minInterval : Int) (calls : List HandleCall)
    (hmono : calls.Chain' (fun a b => a.m.RcvOvfl ≤ b.m.RcvOvfl))
    (hrange : ∀ c ∈ calls, c.m.RcvOvfl < 2 ^ 32)
    (k : Nat) (hk : k < calls.length) :
    metricTotal (runHandle (freshLogger minInterval) (calls.take (k + 1))).2 =
        (runHandle (freshLogger minInterval) (calls.take (k + 1))).1.lastPrintValue ∧
    metricTotal (runHandle (freshLogger minInterval) (calls.take (k + 1))).2 ≤
        (calls.get ⟨k, hk⟩).m.RcvOvfl := by
  have htrans : IsTrans HandleCall (fun a b => a.m.RcvOvfl ≤ b.m.RcvOvfl) :=
    ⟨fun _ _ _ h1 h2 => Nat.le_trans h1 h2⟩
  have hpw : (calls.take (k + 1)).Pairwise (fun a b => a.m.RcvOvfl ≤ b.m.RcvOvfl) :=
    List.chain'_iff_pairwise.1 (hmono.take (k + 1))
  have hinv := runHandle_total (calls.take (k + 1)) (freshLogger minInterval)
    (fun c _ => Nat.zero_le _) hpw
    (fun c hc => hrange c (List.mem_of_mem_take hc))
  have heq : metricTotal (runHandle (freshLogger minInterval) (calls.take (k + 1))).2 =
      (runHandle (freshLogger minInterval) (calls.take (k + 1))).1.lastPrintValue := by
    have := hinv.1
    simpa [freshLogger] using this
  refine ⟨heq, ?_⟩
  rw [heq]
  rcases hinv.2 with h0 | ⟨c, hc, h1⟩
  · rw [h0]; exact Nat.zero_le _
  · rw [h1]
    have hsplit : calls.take (k + 1) = calls.take k ++ [calls.get ⟨k, hk⟩] := by
      have h := List.take_concat_get calls k hk
      rw [List.concat_eq_append] at h
      exact h.symm
    rw [hsplit] at hc hpw
    rcases List.mem_append.1 hc with hin | hin
    · exact (List.pairwise_append.1 hpw).2.2 c hin _ (List.mem_singleton_self _)
    · rw [List.mem_singleton.1 hin]

/-- Witness for C10: after the fourth of the sample calls the metric holds 7, which is
`lastPrintValue`, below the reading 9 that was throttled. -/
theorem metric_total_eq_lastPrintValue_witness :
    metricTotal (runHandle (freshLogger OverflowLoggingInterval) (sampleCalls.take 4)).2 =
        (runHandle (freshLogger OverflowLoggingInterval) (sampleCalls.take 4)).1.lastPrintValue ∧
    metricTotal (runHandle (freshLogger OverflowLoggingInterval) (sampleCalls.take 4)).2 ≤
        (sampleCalls.get ⟨3, by decide⟩).m.RcvOvfl :=
  metric_total_eq_lastPrintValue OverflowLoggingInterval sampleCalls
    (by simp [sampleCalls, metaOfOverflow]) (by decide) 3 (by decide)

/-! ## underlayConnWrapper.ReadFrom -/

theorem uint64Bytes_length (v : Nat) : (uint64Bytes v).length = 8 := rfl

theorem uint32Bytes_length (v : Nat) : (uint32Bytes v).length = 4 := rfl

theorem Byte4_toList_length (a : Byte4) : a.toList.length = 4 := rfl

theorem metaBytes_length (m : ReadMeta) : (metaBytes m).length = 52 := rfl

theorem PutUint64_append (b c : List Byte) (v : Nat) (hb : b.length = 8) :
    PutUint64 (b ++ c) v = some (uint64Bytes v ++ c) := by
  unfold PutUint64
  have hlen : ¬ (b ++ c).length < 8 := by
    rw [List.length_append]; omega
  rw [if_neg hlen, List.drop_left' hb]

theorem PutUint32_append (b c : List Byte) (v : Nat) (hb : b.length = 4) :
    PutUint32 (b ++ c) v = some (uint32Bytes v ++ c) := by
  unfold PutUint32
  have hlen : ¬ (b ++ c).length < 4 := by
    rw [List.length_append]; omega
  rw [if_neg hlen, List.drop_left' hb]

theorem copyBytes_append (b c src : List Byte) (hb : b.length = src.length) :
    copyBytes (b ++ c) src = src ++ c := by
  unfold copyBytes
  have h1 : List.take (b ++ c).length src = src := by
    apply List.take_of_length_le
    rw [List.length_append]; omega
  have h2 : min (b ++ c).length src.length = b.length := by
    rw [List.length_append]; omega
  rw [h1, h2, List.drop_left]

theorem onSliceFrom_append (a b c b' : List Byte) (k : Int)
    (f : List Byte → Option (List Byte)) (hk : k = a.length)
    (hf : f (b ++ c) = some (b' ++ c)) :
    onSliceFrom (a ++ (b ++ c)) k f = some (a ++ (b' ++ c)) := by
  subst hk
  unfold onSliceFrom sliceFrom
  have h1 : (0 : Int) ≤ (a.length : Int) ∧
      (a.length : Int) ≤ ((a ++ (b ++ c)).length : Nat) := by
    constructor
    · omega
    · rw [List.length_append]; omega
  rw [if_pos h1]
  simp only [Int.toNat_ofNat, List.drop_left, List.take_left, hf]

theorem exists_split (l : List Byte) (k : Nat) (h : k ≤ l.length) :
    ∃ a b, l = a ++ b ∧ a.length = k :=
  ⟨l.take k, l.drop k, (List.take_append_drop k l).symm, by
    rw [List.length_take]; omega⟩

theorem writeMeta_append (front mid post : List Byte) (n : Int) (m : ReadMeta)
    (hn : n = front.length) (hmid : mid.length = 52) :
    writeMeta (front ++ (mid ++ post)) n m =
      some (front ++ (metaBytes m ++ post)) := by
  obtain ⟨m1, r1, e1, l1⟩ := exists_split mid 8 (by omega)
  subst e1
  rw [List.length_append] at hmid
  obtain ⟨m2, r2, e2, l2⟩ := exists_split r1 8 (by omega)
  subst e2
  rw [List.length_append] at hmid
  obtain ⟨m3, r3, e3, l3⟩ := exists_split r2 8 (by omega)
  subst e3
  rw [List.length_append] at hmid
  obtain ⟨m4, r4, e4, l4⟩ := exists_split r3 8 (by omega)
  subst e4
  rw [List.length_append] at hmid
  obtain ⟨m5, r5, e5, l5⟩ := exists_split r4 4 (by omega)
  subst e5
  rw [List.length_append] at hmid
  obtain ⟨m6, r6, e6, l6⟩ := exists_split r5 4 (by omega)
  subst e6
  rw [List.length_append] at hmid
  obtain ⟨m7, r7, e7, l7⟩ := exists_split r6 4 (by omega)
  subst e7
  rw [List.length_append] at hmid
  obtain ⟨m8, m9, e8, l8⟩ := exists_split r7 4 (by omega)
  subst e8
  rw [List.length_append] at hmid
  have l9 : m9.length = 4 := by omega
  have s1 := onSliceFrom_append front m1
    (m2 ++ (m3 ++ (m4 ++ (m5 ++ (m6 ++ (m7 ++ (m8 ++ (m9 ++ post))))))))
    (uint64Bytes (toUint64 m.KernelTS.Sec)) n
    (fun b => PutUint64 b (toUint64 m.KernelTS.Sec)) hn (PutUint64_append _ _ _ l1)
  have s2 := onSliceFrom_append (front ++ uint64Bytes (toUint64 m.KernelTS.Sec)) m2
    (m3 ++ (m4 ++ (m5 ++ (m6 ++ (m7 ++ (m8 ++ (m9 ++ post)))))))
    (uint64Bytes (toUint64 m.KernelTS.Nsec)) (n + 8)
    (fun b => PutUint64 b (toUint64 m.KernelTS.Nsec))
    (by rw [List.length_append, uint64Bytes_length, hn]; push_cast; ring)
    (PutUint64_append _ _ _ l2)
  have s3 := onSliceFrom_append
    (front ++ (uint64Bytes (toUint64 m.KernelTS.Sec) ++
      uint64Bytes (toUint64 m.KernelTS.Nsec))) m3
    (m4 ++ (m5 ++ (m6 ++ (m7 ++ (m8 ++ (m9 ++ post))))))
    (uint64Bytes (toUint64 m.HwTS.Sec)) (n + 16)
    (fun b => PutUint64 b (toUint64 m.HwTS.Sec))
    (by simp only [List.length_append, uint64Bytes_length, hn]; push_cast; ring)
    (PutUint64_append _ _ _ l3)
  have s4 := onSliceFrom_append
    (front ++ (uint64Bytes (toUint64 m.KernelTS.Sec) ++
      (uint64Bytes (toUint64 m.KernelTS.Nsec) ++ uint64Bytes (toUint64 m.HwTS.Sec)))) m4
    (m5 ++ (m6 ++ (m7 ++ (m8 ++ (m9 ++ post)))))
    (uint64Bytes (toUint64 m.HwTS.Nsec)) (n + 24)
    (fun b => PutUint64 b (toUint64 m.HwTS.Nsec))
    (by simp only [List.length_append, uint64Bytes_length, hn]; push_cast; ring)
    (PutUint64_append _ _ _ l4)
  have s5 := onSliceFrom_append
    (front ++ (uint64Bytes (toUint64 m.KernelTS.Sec) ++
      (uint64Bytes (toUint64 m.KernelTS.Nsec) ++ (uint64Bytes (toUint64 m.HwTS.Sec) ++
        uint64Bytes (toUint64 m.HwTS.Nsec))))) m5
    (m6 ++ (m7 ++ (m8 ++ (m9 ++ post))))
    (uint32Bytes (toUint32 m.InterfaceId)) (n + 32)
    (fun b => PutUint32 b (toUint32 m.InterfaceId))
    (by simp only [List.length_append, uint64Bytes_length, hn]; push_cast; ring)
    (PutUint32_append _ _ _ l5)
  have s6 := onSliceFrom_append
    (front ++ (uint64Bytes (toUint64 m.KernelTS.Sec) ++
      (uint64Bytes (toUint64 m.KernelTS.Nsec) ++ (uint64Bytes (toUint64 m.HwTS.Sec) ++
        (uint64Bytes (toUint64 m.HwTS.Nsec) ++ uint32Bytes (toUint32 m.InterfaceId)))))) m6
    (m7 ++ (m8 ++ (m9 ++ post)))
    (uint32Bytes (toUint32 m.PktLengthL2)) (n + 36)
    (fun b => PutUint32 b (toUint32 m.PktLengthL2))
    (by simp only [List.length_append, uint64Bytes_length, uint32Bytes_length, hn]
        push_cast; ring)
    (PutUint32_append _ _ _ l6)
  have s7 := onSliceFrom_append
    (front ++ (uint64Bytes (toUint64 m.KernelTS.Sec) ++
      (uint64Bytes (toUint64 m.KernelTS.Nsec) ++ (uint64Bytes (toUint64 m.HwTS.Sec) ++
        (uint64Bytes (toUint64 m.HwTS.Nsec) ++ (uint32Bytes (toUint32 m.InterfaceId) ++
          uint32Bytes (toUint32 m.PktLengthL2))))))) m7
    (m8 ++ (m9 ++ post))
    (uint32Bytes (toUint32 m.Ipi.Ifindex)) (n + 40)
    (fun b => PutUint32 b (toUint32 m.Ipi.Ifindex))
    (by simp only [List.length_append, uint64Bytes_length, uint32Bytes_length, hn]
        push_cast; ring)
    (PutUint32_append _ _ _ l7)
  have s8 := onSliceFrom_append
    (front ++ (uint64Bytes (toUint64 m.KernelTS.Sec) ++
      (uint64Bytes (toUint64 m.KernelTS.Nsec) ++ (uint64Bytes (toUint64 m.HwTS.Sec) ++
        (uint64Bytes (toUint64 m.HwTS.Nsec) ++ (uint32Bytes (toUint32 m.InterfaceId) ++
          (uint32Bytes (toUint32 m.PktLengthL2) ++
            uint32Bytes (toUint32 m.Ipi.Ifindex)))))))) m8
    (m9 ++ post)
    m.Ipi.Spec_dst.toList (n + 44)
    (fun b => some (copyBytes b m.Ipi.Spec_dst.toList))
    (by simp only [List.length_append, uint64Bytes_length, uint32Bytes_length, hn]
        push_cast; ring)
    (congrArg some (copyBytes_append _ _ _ (by rw [l8, Byte4_toList_length])))
  have s9 := onSliceFrom_append
    (front ++ (uint64Bytes (toUint64 m.KernelTS.Sec) ++
      (uint64Bytes (toUint64 m.KernelTS.Nsec) ++ (uint64Bytes (toUint64 m.HwTS.Sec) ++
        (uint64Bytes (toUint64 m.HwTS.Nsec) ++ (uint32Bytes (toUint32 m.InterfaceId) ++
          (uint32Bytes (toUint32 m.PktLengthL2) ++
            (uint32Bytes (toUint32 m.Ipi.Ifindex) ++ m.Ipi.Spec_dst.toList)))))))) m9
    post
    m.Ipi.Addr.toList (n + 48)
    (fun b => some (copyBytes b m.Ipi.Addr.toList))
    (by simp only [List.length_append, uint64Bytes_length, uint32Bytes_length,
          Byte4_toList_length, hn]
        push_cast; ring)
    (congrArg some (copyBytes_append _ _ _ (by rw [l9, Byte4_toList_length])))
  simp only [List.append_assoc] at s1 s2 s3 s4 s5 s6 s7 s8 s9
  unfold writeMeta metaBytes
  simp only [List.append_assoc, s1, s2, s3, s4, s5, s6, s7, s8, s9,
    Option.bind_eq_bind, Option.some_bind]

theorem leDecode_uint64Bytes (v : Nat) : leDecode (uint64Bytes v) = v % 2 ^ 64 := by
  simp only [leDecode, uint64Bytes, byteOf, Nat.shiftRight_eq_div_pow]
  norm_num
  omega

theorem leDecode_uint32Bytes (v : Nat) : leDecode (uint32Bytes v) = v % 2 ^ 32 := by
  simp only [leDecode, uint32Bytes, byteOf, Nat.shiftRight_eq_div_pow]
  norm_num
  omega

theorem toUint64_lt (x : Int) : toUint64 x < 2 ^ 64 := by
  unfold toUint64
  omega

theorem toUint32_lt (x : Int) : toUint32 x < 2 ^ 32 := by
  unfold toUint32
  omega

theorem window_append (a b c : List Byte) :
    window (a ++ (b ++ c)) a.length (a.length + b.length) = b := by
  unfold window
  rw [List.drop_left, Nat.add_sub_cancel_left, List.take_left]

theorem buffer_split (p : List Byte) (k : Nat) (h : k + 52 ≤ p.length) :
    ∃ a mid c, p = a ++ (mid ++ c) ∧ a.length = k ∧ mid.length = 52 ∧
      a = p.take k ∧ c = p.drop (k + 52) := by
  refine ⟨p.take k, (p.drop k).take 52, (p.drop k).drop 52, ?_, ?_, ?_, rfl, ?_⟩
  · rw [List.take_append_drop, List.take_append_drop]
  · rw [List.length_take]; omega
  · rw [List.length_take, List.length_drop]; omega
  · rw [List.drop_drop]

theorem ReadFrom_of_fits (rd : ConnRead) (m : ReadMeta) (hm : rd.m = some m)
    (h0 : 0 ≤ rd.n) (hfit : rd.n + 52 < rd.p.length) :
    underlayConnWrapper.ReadFrom rd =
      some { n := rd.n, addr := NetAddr.udp m.Src, err := rd.err,
             p := rd.p.take rd.n.toNat ++ (metaBytes m ++ rd.p.drop (rd.n.toNat + 52)),
             handled := [m], errorLogs := [] } := by
  obtain ⟨a, mid, c, hp, ha, hmid, hta, htc⟩ := buffer_split rd.p rd.n.toNat (by omega)
  have hw := writeMeta_append a mid c rd.n m (by omega) hmid
  rw [← hp] at hw
  unfold underlayConnWrapper.ReadFrom
  rw [hm]
  simp only
  rw [if_pos hfit, hw, ← hta, ← htc]

theorem ReadFrom_of_not_fits (rd : ConnRead) (m : ReadMeta) (hm : rd.m = some m)
    (hfit : ¬ (rd.n + 52 < rd.p.length)) :
    underlayConnWrapper.ReadFrom rd =
      some { n := rd.n, addr := NetAddr.udp m.Src, err := rd.err, p := rd.p,
             handled := [m], errorLogs := [(rd.n, rd.p.length)] } := by
  unfold underlayConnWrapper.ReadFrom
  rw [hm]
  simp only
  rw [if_neg hfit]

theorem ReadFrom_of_no_meta (rd : ConnRead) (hm : rd.m = none) :
    underlayConnWrapper.ReadFrom rd =
      some { n := rd.n, addr := NetAddr.nil, err := rd.err, p := rd.p,
             handled := [], errorLogs := [] } := by
  unfold underlayConnWrapper.ReadFrom
  rw [hm]

/-- C9: with non-nil metadata, `n ≥ 0` and `n + 52 < len(p)`, `ReadFrom` returns (no
metadata write leaves `p`), the buffer keeps its length, and `p[n : n+52]` is the
concatenation of the little-endian encodings of `KernelTS.Sec`, `KernelTS.Nsec`,
`HwTS.Sec`, `HwTS.Nsec` (8 bytes each, mod `2^64`), `InterfaceId`, `PktLengthL2`,
`Ipi.Ifindex` (4 bytes each, mod `2^32`), then `Ipi.Spec_dst` and `Ipi.Addr`; decoding
each offset little-endian recovers the field. -/
theorem ReadFrom_metadata_layout (rd : ConnRead) (m : ReadMeta) (hm : rd.m = some m)
    (h0 : 0 ≤ rd.n) (hfit : rd.n + 52 < rd.p.length) :
    ∃ r, underlayConnWrapper.ReadFrom rd = some r ∧
      r.p.length = rd.p.length ∧
      window r.p rd.n.toNat (rd.n.toNat + 52) =
        uint64Bytes (toUint64 m.KernelTS.Sec) ++ uint64Bytes (toUint64 m.KernelTS.Nsec) ++
        uint64Bytes (toUint64 m.HwTS.Sec) ++ uint64Bytes (toUint64 m.HwTS.Nsec) ++
        uint32Bytes (toUint32 m.InterfaceId) ++ uint32Bytes (toUint32 m.PktLengthL2) ++
        uint32Bytes (toUint32 m.Ipi.Ifindex) ++
        [m.Ipi.Spec_dst.b0, m.Ipi.Spec_dst.b1, m.Ipi.Spec_dst.b2, m.Ipi.Spec_dst.b3] ++
        [m.Ipi.Addr.b0, m.Ipi.Addr.b1, m.Ipi.Addr.b2, m.Ipi.Addr.b3] ∧
      (leDecode (window r.p rd.n.toNat (rd.n.toNat + 8)) : Int) = m.KernelTS.Sec % 2 ^ 64 ∧
      (leDecode (window r.p (rd.n.toNat + 8) (rd.n.toNat + 16)) : Int) =
        m.KernelTS.Nsec % 2 ^ 64 ∧
      (leDecode (window r.p (rd.n.toNat + 16) (rd.n.toNat + 24)) : Int) =
        m.HwTS.Sec % 2 ^ 64 ∧
      (leDecode (window r.p (rd.n.toNat + 24) (rd.n.toNat + 32)) : Int) =
        m.HwTS.Nsec % 2 ^ 64 ∧
      (leDecode (window r.p (rd.n.toNat + 32) (rd.n.toNat + 36)) : Int) =
        m.InterfaceId % 2 ^ 32 ∧
      (leDecode (window r.p (rd.n.toNat + 36) (rd.n.toNat + 40)) : Int) =
        m.PktLengthL2 % 2 ^ 32 ∧
      (leDecode (window r.p (rd.n.toNat + 40) (rd.n.toNat + 44)) : Int) =
        m.Ipi.Ifindex % 2 ^ 32 ∧
      window r.p (rd.n.toNat + 44) (rd.n.toNat + 48) = m.Ipi.Spec_dst.toList ∧
      window r.p (rd.n.toNat + 48) (rd.n.toNat + 52) = m.Ipi.Addr.toList := by
  refine ⟨_, ReadFrom_of_fits rd m hm h0 hfit, ?_⟩
  simp only
  have hk : (rd.p.take rd.n.toNat).length = rd.n.toNat := by
    rw [List.length_take]; omega
  generalize rd.p.take rd.n.toNat = a at hk
  generalize hc : rd.p.drop (rd.n.toNat + 52) = c
  have hclen : c.length = rd.p.length - (rd.n.toNat + 52) := by
    rw [← hc, List.length_drop]
  rw [← hk]
  have d64 : ∀ x : Int, (leDecode (uint64Bytes (toUint64 x)) : Int) = x % 2 ^ 64 := by
    intro x
    rw [leDecode_uint64Bytes, Nat.mod_eq_of_lt (toUint64_lt x)]
    unfold toUint64
    omega
  have d32 : ∀ x : Int, (leDecode (uint32Bytes (toUint32 x)) : Int) = x % 2 ^ 32 := by
    intro x
    rw [leDecode_uint32Bytes, Nat.mod_eq_of_lt (toUint32_lt x)]
    unfold toUint32
    omega
  have w0 := window_append a (metaBytes m) c
  have w1 := window_append a (uint64Bytes (toUint64 m.KernelTS.Sec))
    (uint64Bytes (toUint64 m.KernelTS.Nsec) ++
      uint64Bytes (toUint64 m.HwTS.Sec) ++ uint64Bytes (toUint64 m.HwTS.Nsec) ++
      uint32Bytes (toUint32 m.InterfaceId) ++ uint32Bytes (toUint32 m.PktLengthL2) ++
      uint32Bytes (toUint32 m.Ipi.Ifindex) ++ m.Ipi.Spec_dst.toList ++ m.Ipi.Addr.toList ++ c)
  have w2 := window_append (a ++ uint64Bytes (toUint64 m.KernelTS.Sec))
    (uint64Bytes (toUint64 m.KernelTS.Nsec))
    (uint64Bytes (toUint64 m.HwTS.Sec) ++ uint64Bytes (toUint64 m.HwTS.Nsec) ++
      uint32Bytes (toUint32 m.InterfaceId) ++ uint32Bytes (toUint32 m.PktLengthL2) ++
      uint32Bytes (toUint32 m.Ipi.Ifindex) ++ m.Ipi.Spec_dst.toList ++ m.Ipi.Addr.toList ++ c)
  have w3 := window_append (a ++ uint64Bytes (toUint64 m.KernelTS.Sec) ++
      uint64Bytes (toUint64 m.KernelTS.Nsec))
    (uint64Bytes (toUint64 m.HwTS.Sec))
    (uint64Bytes (toUint64 m.HwTS.Nsec) ++
      uint32Bytes (toUint32 m.InterfaceId) ++ uint32Bytes (toUint32 m.PktLengthL2) ++
      uint32Bytes (toUint32 m.Ipi.Ifindex) ++ m.Ipi.Spec_dst.toList ++ m.Ipi.Addr.toList ++ c)
  have w4 := window_append (a ++ uint64Bytes (toUint64 m.KernelTS.Sec) ++
      uint64Bytes (toUint64 m.KernelTS.Nsec) ++ uint64Bytes (toUint64 m.HwTS.Sec))
    (uint64Bytes (toUint64 m.HwTS.Nsec))
    (uint32Bytes (toUint32 m.InterfaceId) ++ uint32Bytes (toUint32 m.PktLengthL2) ++
      uint32Bytes (toUint32 m.Ipi.Ifindex) ++ m.Ipi.Spec_dst.toList ++ m.Ipi.Addr.toList ++ c)
  have w5 := window_append (a ++ uint64Bytes (toUint64 m.KernelTS.Sec) ++
      uint64Bytes (toUint64 m.KernelTS.Nsec) ++ uint64Bytes (toUint64 m.HwTS.Sec) ++
      uint64Bytes (toUint64 m.HwTS.Nsec))
    (uint32Bytes (toUint32 m.InterfaceId))
    (uint32Bytes (toUint32 m.PktLengthL2) ++
      uint32Bytes (toUint32 m.Ipi.Ifindex) ++ m.Ipi.Spec_dst.toList ++ m.Ipi.Addr.toList ++ c)
  have w6 := window_append (a ++ uint64Bytes (toUint64 m.KernelTS.Sec) ++
      uint64Bytes (toUint64 m.KernelTS.Nsec) ++ uint64Bytes (toUint64 m.HwTS.Sec) ++
      uint64Bytes (toUint64 m.HwTS.Nsec) ++ uint32Bytes (toUint32 m.InterfaceId))
    (uint32Bytes (toUint32 m.PktLengthL2))
    (uint32Bytes (toUint32 m.Ipi.Ifindex) ++ m.Ipi.Spec_dst.toList ++ m.Ipi.Addr.toList ++ c)
  have w7 := window_append (a ++ uint64Bytes (toUint64 m.KernelTS.Sec) ++
      uint64Bytes (toUint64 m.KernelTS.Nsec) ++ uint64Bytes (toUint64 m.HwTS.Sec) ++
      uint64Bytes (toUint64 m.HwTS.Nsec) ++ uint32Bytes (toUint32 m.InterfaceId) ++
      uint32Bytes (toUint32 m.PktLengthL2))
    (uint32Bytes (toUint32 m.Ipi.Ifindex))
    (m.Ipi.Spec_dst.toList ++ m.Ipi.Addr.toList ++ c)
  have w8 := window_append (a ++ uint64Bytes (toUint64 m.KernelTS.Sec) ++
      uint64Bytes (toUint64 m.KernelTS.Nsec) ++ uint64Bytes (toUint64 m.HwTS.Sec) ++
      uint64Bytes (toUint64 m.HwTS.Nsec) ++ uint32Bytes (toUint32 m.InterfaceId) ++
      uint32Bytes (toUint32 m.PktLengthL2) ++ uint32Bytes (toUint32 m.Ipi.Ifindex))
    m.Ipi.Spec_dst.toList (m.Ipi.Addr.toList ++ c)
  have w9 := window_append (a ++ uint64Bytes (toUint64 m.KernelTS.Sec) ++
      uint64Bytes (toUint64 m.KernelTS.Nsec) ++ uint64Bytes (toUint64 m.HwTS.Sec) ++
      uint64Bytes (toUint64 m.HwTS.Nsec) ++ uint32Bytes (toUint32 m.InterfaceId) ++
      uint32Bytes (toUint32 m.PktLengthL2) ++ uint32Bytes (toUint32 m.Ipi.Ifindex) ++
      m.Ipi.Spec_dst.toList)
    m.Ipi.Addr.toList c
  simp only [List.append_assoc, List.length_append, uint64Bytes_length, uint32Bytes_length,
    Byte4_toList_length, metaBytes_length, Nat.add_assoc, Nat.reduceAdd]
    at w0 w1 w2 w3 w4 w5 w6 w7 w8 w9
  unfold metaBytes at w0 ⊢
  simp only [List.append_assoc] at w0 ⊢
  rw [w0, w1, w2, w3, w4, w5, w6, w7, w8, w9]
  refine ⟨?_, ?_, d64 _, d64 _, d64 _, d64 _, d32 _, d32 _, d32 _, rfl, rfl⟩
  · simp only [List.length_append, uint64Bytes_length, uint32Bytes_length,
      Byte4_toList_length, hclen]
    omega
  · simp only [Byte4.toList, List.append_assoc]

theorem getElem_eq_of_take_drop_eq (l l' : List Byte) (k : Nat)
    (ht : l.take k = l'.take k) (hd : l.drop (k + 52) = l'.drop (k + 52))
    (i : Nat) (hi : i < k ∨ k + 52 ≤ i) : l[i]? = l'[i]? := by
  rcases hi with hi | hi
  · rw [← List.getElem?_take_of_lt hi, ← List.getElem?_take_of_lt hi (l := l'), ht]
  · obtain ⟨j, rfl⟩ := Nat.exists_eq_add_of_le hi
    rw [← List.getElem?_drop, ← List.getElem?_drop, hd]

/-- Witness for C9: the 2-byte read into 55 bytes. -/
theorem ReadFrom_metadata_layout_witness :
    ∃ r, underlayConnWrapper.ReadFrom roomyRead = some r ∧ r.p.length = roomyRead.p.length ∧
      (leDecode (window r.p 2 10) : Int) = 1 % 2 ^ 64 := by
  obtain ⟨r, h1, h2, _, h4, _⟩ :=
    ReadFrom_metadata_layout roomyRead sampleMeta rfl (by decide) (by decide)
  exact ⟨r, h1, h2, h4⟩

/-- C4: `ReadFrom` returns the count `n` and the error exactly as `Conn.Read` returned
them, returns `meta.Src` as the address when metadata is present and the nil address
when it is absent, and leaves the payload `p[0:n]`, every byte at index `≥ n + 52` and
the length of `p` as the read left them; when metadata is absent the handler is not
invoked and `p` is unchanged.  (`n` is the byte count of the packet, so `0 ≤ n`.) -/
theorem ReadFrom_frame (rd : ConnRead) (h0 : 0 ≤ rd.n) :
    ∃ r, underlayConnWrapper.ReadFrom rd = some r ∧
      r.n = rd.n ∧ r.err = rd.err ∧
      r.addr = (match rd.m with
        | none => NetAddr.nil
        | some m => NetAddr.udp m.Src) ∧
      r.p.length = rd.p.length ∧
      r.p.take rd.n.toNat = rd.p.take rd.n.toNat ∧
      r.p.drop (rd.n.toNat + 52) = rd.p.drop (rd.n.toNat + 52) ∧
      (∀ i : Nat, (i < rd.n.toNat ∨ rd.n.toNat + 52 ≤ i) → r.p[i]? = rd.p[i]?) ∧
      (rd.m = none → r.handled = [] ∧ r.p = rd.p ∧ r.errorLogs = []) ∧
      (∀ m, rd.m = some m → r.handled = [m]) := by
  cases hm : rd.m with
  | none =>
    refine ⟨_, ReadFrom_of_no_meta rd hm, rfl, rfl, rfl, rfl, rfl, rfl, fun _ _ => rfl,
      fun _ => ⟨rfl, rfl, rfl⟩, fun m h => Option.noConfusion h⟩
  | some m =>
    by_cases hfit : rd.n + 52 < rd.p.length
    · refine ⟨_, ReadFrom_of_fits rd m hm h0 hfit, rfl, rfl, rfl, ?_⟩
      simp only
      obtain ⟨a, mid, c, hp, ha, hmid, hta, htc⟩ :=
        buffer_split rd.p rd.n.toNat (by omega)
      rw [← hta, ← htc]
      have hlen : (a ++ (metaBytes m ++ c)).length = rd.p.length := by
        rw [hp]
        simp only [List.length_append, metaBytes_length, hmid]
      have htake : List.take rd.n.toNat (a ++ (metaBytes m ++ c)) = a :=
        List.take_left' ha
      have hdrop : List.drop (rd.n.toNat + 52) (a ++ (metaBytes m ++ c)) = c := by
        rw [← List.append_assoc]
        apply List.drop_left'
        rw [List.length_append, ha, metaBytes_length]
      refine ⟨hlen, htake, hdrop, ?_, fun h => Option.noConfusion h, fun m' h => ?_⟩
      · intro i hi
        exact getElem_eq_of_take_drop_eq _ _ rd.n.toNat (htake.trans hta) (hdrop.trans htc) i hi
      · cases h; rfl
    · refine ⟨_, ReadFrom_of_not_fits rd m hm hfit, rfl, rfl, rfl, rfl, rfl, rfl,
        fun _ _ => rfl, fun h => Option.noConfusion h, fun m' h => ?_⟩
      cases h; rfl

/-- Witness for C4: the 2-byte read into 55 bytes keeps its payload bytes. -/
theorem ReadFrom_frame_witness :
    ∃ r, underlayConnWrapper.ReadFrom roomyRead = some r ∧ r.n = 2 ∧
      r.p.take 2 = [170, 187] := by
  obtain ⟨r, h1, h2, _, _, _, h6, _⟩ := ReadFrom_frame roomyRead (by decide)
  exact ⟨r, h1, h2, h6⟩

/-- C3 at the boundary `len(p) - n = 52`: the nine metadata writes would all stay inside
`p` (the metadata fits exactly), yet `ReadFrom` drops the metadata, leaves `p` as it was
and logs the error. -/
theorem ReadFrom_drops_metadata_that_fits :
    (tightRead.p.length : Int) - tightRead.n = 52 ∧
    writeMeta tightRead.p tightRead.n sampleMeta = some (metaBytes sampleMeta) ∧
    underlayConnWrapper.ReadFrom tightRead =
      some { n := 0, addr := NetAddr.udp sampleMeta.Src, err := none, p := tightRead.p,
             handled := [sampleMeta], errorLogs := [(0, 52)] } := by
  refine ⟨by decide, by decide, by decide⟩

/-! ## registerIfSCMPInfo and Conn -/

theorem zeroExtend64_of_lt (id : Nat) (h : id < 2 ^ 16) : zeroExtend64 id = id := by
  unfold zeroExtend64
  omega

/-- C6: `registerIfSCMPInfo` calls `RegisterID` if and only if the layer-4 kind is SCMP,
the SCMP type is echo request or traceroute request, and the identifier extraction
succeeds; then the registered value is the identifier zero-extended to 64 bits (the
identifier itself, for a 16-bit one) and the result is `RegisterID`'s result.  For any
other kind or type, echo and traceroute replies included, it registers nothing and
returns nil; when extraction fails it registers nothing and returns that error. -/
theorem registerIfSCMPInfo_registers_iff_request
    (extract : SCMP → Except GoError Nat) (ref : RegReference) (pkt : Packet) :
    ((registerIfSCMPInfo extract ref pkt).registered ≠ [] ↔
      (pkt.L4 = LayerTypeSCMP ∧
        (pkt.SCMP.typeOf = SCMPTypeEchoRequest ∨
          pkt.SCMP.typeOf = SCMPTypeTracerouteRequest) ∧
        ∃ id, extract pkt.SCMP = Except.ok id)) ∧
    (∀ id, pkt.L4 = LayerTypeSCMP →
      (pkt.SCMP.typeOf = SCMPTypeEchoRequest ∨
        pkt.SCMP.typeOf = SCMPTypeTracerouteRequest) →
      extract pkt.SCMP = Except.ok id →
        registerIfSCMPInfo extract ref pkt =
          { err := ref.RegisterID (id % 2 ^ 64), registered := [id % 2 ^ 64] } ∧
        (id < 2 ^ 16 → (registerIfSCMPInfo extract ref pkt).registered = [id])) ∧
    (¬ (pkt.L4 = LayerTypeSCMP ∧
        (pkt.SCMP.typeOf = SCMPTypeEchoRequest ∨
          pkt.SCMP.typeOf = SCMPTypeTracerouteRequest)) →
      registerIfSCMPInfo extract ref pkt = { err := none, registered := [] }) ∧
    ((pkt.SCMP.typeOf = SCMPTypeEchoReply ∨ pkt.SCMP.typeOf = SCMPTypeTracerouteReply) →
      registerIfSCMPInfo extract ref pkt = { err := none, registered := [] }) ∧
    (∀ e, pkt.L4 = LayerTypeSCMP →
      (pkt.SCMP.typeOf = SCMPTypeEchoRequest ∨
        pkt.SCMP.typeOf = SCMPTypeTracerouteRequest) →
      extract pkt.SCMP = Except.error e →
        registerIfSCMPInfo extract ref pkt = { err := some e, registered := [] }) := by
  have hok : ∀ id, pkt.L4 = LayerTypeSCMP →
      (pkt.SCMP.typeOf = SCMPTypeEchoRequest ∨
        pkt.SCMP.typeOf = SCMPTypeTracerouteRequest) →
      extract pkt.SCMP = Except.ok id →
        registerIfSCMPInfo extract ref pkt =
          { err := ref.RegisterID (id % 2 ^ 64), registered := [id % 2 ^ 64] } := by
    intro id h4 ht he
    unfold registerIfSCMPInfo
    rw [if_neg (not_not.2 h4)]
    simp only
    rw [if_neg (by intro hc; rcases ht with h | h <;> [exact hc.1 h; exact hc.2 h]), he]
    rfl
  have herr : ∀ e, pkt.L4 = LayerTypeSCMP →
      (pkt.SCMP.typeOf = SCMPTypeEchoRequest ∨
        pkt.SCMP.typeOf = SCMPTypeTracerouteRequest) →
      extract pkt.SCMP = Except.error e →
        registerIfSCMPInfo extract ref pkt = { err := some e, registered := [] } := by
    intro e h4 ht he
    unfold registerIfSCMPInfo
    rw [if_neg (not_not.2 h4)]
    simp only
    rw [if_neg (by intro hc; rcases ht with h | h <;> [exact hc.1 h; exact hc.2 h]), he]
  have hnot : ¬ (pkt.L4 = LayerTypeSCMP ∧
        (pkt.SCMP.typeOf = SCMPTypeEchoRequest ∨
          pkt.SCMP.typeOf = SCMPTypeTracerouteRequest)) →
      registerIfSCMPInfo extract ref pkt = { err := none, registered := [] } := by
    intro hn
    unfold registerIfSCMPInfo
    by_cases h4 : pkt.L4 = LayerTypeSCMP
    · rw [if_neg (not_not.2 h4)]
      simp only
      rw [if_pos ⟨fun h => hn ⟨h4, Or.inl h⟩, fun h => hn ⟨h4, Or.inr h⟩⟩]
    · rw [if_pos h4]
  refine ⟨⟨fun hne => ?_, fun h => ?_⟩, fun id h4 ht he => ⟨hok id h4 ht he, fun hid => ?_⟩,
    hnot, fun hrep => hnot fun hc => ?_, herr⟩
  · by_cases happ : pkt.L4 = LayerTypeSCMP ∧
        (pkt.SCMP.typeOf = SCMPTypeEchoRequest ∨
          pkt.SCMP.typeOf = SCMPTypeTracerouteRequest)
    · cases he : extract pkt.SCMP with
      | ok id => exact ⟨happ.1, happ.2, id, rfl⟩
      | error e =>
        rw [herr e happ.1 happ.2 he] at hne
        exact absurd rfl hne
    · rw [hnot happ] at hne
      exact absurd rfl hne
  · obtain ⟨h4, ht, id, he⟩ := h
    rw [hok id h4 ht he]
    exact List.cons_ne_nil _ _
  · rw [hok id h4 ht he]
    have := zeroExtend64_of_lt id hid
    unfold zeroExtend64 at this
    simp only [this]
  · have h1 := hc.2
    unfold SCMPTypeEchoRequest SCMPTypeTracerouteRequest at h1
    unfold SCMPTypeEchoReply SCMPTypeTracerouteReply at hrep
    omega

/-- Witness for C6: the echo request registers its identifier 300. -/
theorem registerIfSCMPInfo_registers_iff_request_witness :
    (registerIfSCMPInfo sampleExtract releasedRef echoRequestPacket).registered = [300] :=
  ((registerIfSCMPInfo_registers_iff_request sampleExtract releasedRef echoRequestPacket).2.1
    300 rfl (Or.inl rfl) rfl).2 (by decide)

/-- C5: `Conn.Write` is best-effort about correlation registration: the calls it makes
are those of `registerIfSCMPInfo` followed by one send of the packet on the underlay
conn to `pkt.UnderlayRemote`, and it returns exactly the `(n, error)` of that send,
whatever the registration reference, `RegisterID` and the extraction answer. -/
theorem Conn_Write_returns_send_result
    (extract : SCMP → Except GoError Nat)
    (send : PacketConn → Packet → NetAddr → Int × Option GoError)
    (ac : Conn) (pkt : Packet) :
    (Conn.Write extract send ac pkt).n =
        (send ac.conn pkt (NetAddr.udp pkt.UnderlayRemote)).1 ∧
    (Conn.Write extract send ac pkt).err =
        (send ac.conn pkt (NetAddr.udp pkt.UnderlayRemote)).2 ∧
    (Conn.Write extract send ac pkt).events =
        (registerIfSCMPInfo extract ac.regReference pkt).registered.map ConnEvent.registerID ++
          [ConnEvent.sendOnConn ac.conn pkt (NetAddr.udp pkt.UnderlayRemote)] ∧
    (∀ (extract' : SCMP → Except GoError Nat) (ref' : RegReference),
      (Conn.Write extract' send { ac with regReference := ref' } pkt).n =
          (Conn.Write extract send ac pkt).n ∧
      (Conn.Write extract' send { ac with regReference := ref' } pkt).err =
          (Conn.Write extract send ac pkt).err) :=
  ⟨rfl, rfl, rfl, fun _ _ => ⟨rfl, rfl⟩⟩

/-- C7: when the ring reports closed (`ring.Read` returns a negative count), `Conn.Read`
returns nil and `Conn.ReadFrom` returns `(0, nil, "Connection closed")` with the
caller's buffer untouched and no packet released; for a packet the ring delivers,
`ReadFrom` returns the count and buffer of `CopyTo`, the packet's `UnderlayRemote` as
the address and a nil error, and releases that packet exactly once and no other. -/
theorem Conn_ReadFrom_closed_or_delivered
    (copyTo : Packet → List Byte → Int × List Byte) (ac : Conn) (rr : RingRead)
    (p : List Byte) :
    (rr.n < 0 →
      Conn.Read rr = some none ∧
      Conn.ReadFrom copyTo ac rr p =
        some { n := 0, addr := NetAddr.nil, err := some ⟨"Connection closed"⟩, p := p,
               events := [ConnEvent.ringRead ac.ring true] }) ∧
    (∀ pkt, 0 ≤ rr.n → rr.entry = some pkt →
      Conn.Read rr = some (some pkt) ∧
      ∃ r, Conn.ReadFrom copyTo ac rr p = some r ∧
        r.n = (copyTo pkt p).1 ∧ r.p = (copyTo pkt p).2 ∧
        r.addr = NetAddr.udp pkt.UnderlayRemote ∧ r.err = none ∧
        freeCount pkt r.events = 1 ∧
        ∀ q, q ≠ pkt → freeCount q r.events = 0) := by
  constructor
  · intro hneg
    have hr : Conn.Read rr = some none := by
      unfold Conn.Read
      rw [if_pos hneg]
    refine ⟨hr, ?_⟩
    unfold Conn.ReadFrom
    rw [hr]
  · intro pkt hpos he
    have hr : Conn.Read rr = some (some pkt) := by
      unfold Conn.Read
      rw [if_neg (by omega), he]
    refine ⟨hr, ?_⟩
    unfold Conn.ReadFrom
    rw [hr]
    refine ⟨_, rfl, rfl, rfl, rfl, rfl, ?_, ?_⟩
    · simp [freeCount]
    · intro q hq
      simp [freeCount, hq, Ne.symm hq]

/-- Witness for C7: the closed ring, and the delivery of the echo request. -/
theorem Conn_ReadFrom_closed_or_delivered_witness :
    Conn.Read ⟨-1, none⟩ = some none ∧
    Conn.Read ⟨1, some echoRequestPacket⟩ = some (some echoRequestPacket) :=
  ⟨((Conn_ReadFrom_closed_or_delivered sampleCopyTo sampleConn ⟨-1, none⟩ [9, 9, 9, 9]).1
      (by decide)).1,
   ((Conn_ReadFrom_closed_or_delivered sampleCopyTo sampleConn ⟨1, some echoRequestPacket⟩
      [9, 9, 9, 9]).2 echoRequestPacket (by decide) rfl).1⟩

/-! ## Server.Register -/

theorem toUint16_of_port (x : Int) (h0 : 0 ≤ x) (h1 : x ≤ 65535) : (toUint16 x : Int) = x := by
  unfold toUint16
  omega

/-- C8: if the routing table's `Register` fails, `Server.Register` returns the nil
connection, port 0 and that same error.  If it succeeds, the error is nil, the returned
port equals the port of the connection's `LocalAddr` for every bound port in
`0..65535` (no 16-bit truncation), the connection reads from the ring of the table
entry that was passed to the routing table, and it sends on the IPv4 socket when
`To4` of the requested IP is non-nil and on the IPv6 socket otherwise. -/
theorem Server_Register_result (s : Server) (ia : Nat) (address : Option UDPAddr)
    (svc : Nat) (tableEntry : TableEntry) :
    (∀ e, s.routingTable ⟨ia, address, svc, tableEntry⟩ = Except.error e →
      ∃ r, s.Register ia address svc tableEntry = some r ∧
        r.conn.isNone = true ∧ r.port = 0 ∧ r.err = some e) ∧
    (∀ ref a la, s.routingTable ⟨ia, address, svc, tableEntry⟩ = Except.ok ref →
      address = some a → ref.UDPAddr = some la → 0 ≤ la.Port → la.Port ≤ 65535 →
      ∃ r conn, s.Register ia address svc tableEntry = some r ∧
        r.err = none ∧ r.conn = some conn ∧
        conn.LocalAddr = NetAddr.udp (some la) ∧ (r.port : Int) = la.Port ∧
        (32768 ≤ la.Port → 32768 ≤ r.port ∧ r.port ≤ 65535) ∧
        r.call.entry = tableEntry ∧ conn.ring = tableEntry.appIngressRing ∧
        ((To4 a.IP).isSome = true → conn.conn = s.ipv4Conn) ∧
        (To4 a.IP = none → conn.conn = s.ipv6Conn)) := by
  constructor
  · intro e he
    refine ⟨{ conn := none, port := 0, err := some e,
              call := ⟨ia, address, svc, tableEntry⟩ }, ?_, rfl, rfl, rfl⟩
    unfold Server.Register
    simp only [he]
  · intro ref a la hok ha hla h0 h1
    subst ha
    have hport := toUint16_of_port la.Port h0 h1
    refine ⟨{ conn := some { conn := if To4 a.IP = none then s.ipv6Conn else s.ipv4Conn,
                             ring := tableEntry.appIngressRing, regReference := ref },
              port := toUint16 la.Port, err := none,
              call := ⟨ia, some a, svc, tableEntry⟩ }, _, ?_, rfl, rfl, ?_, hport, ?_, rfl, rfl,
            ?_, ?_⟩
    · unfold Server.Register
      simp only [hok, hla]
    · unfold Conn.LocalAddr
      simp only [hla]
    · intro h2
      simp only
      omega
    · intro h4
      have hne : To4 a.IP ≠ none := by
        intro hc
        rw [hc] at h4
        exact absurd h4 (by decide)
      simp only [if_neg hne]
    · intro h6
      simp only [if_pos h6]

/-- Witness for C8: registering `10.0.0.1` on port 0 returns the allocated port 40000. -/
theorem Server_Register_result_witness :
    ∃ r conn, (newServer sampleTable).Register 1 (some ⟨[10, 0, 0, 1], 0, ""⟩) 0 ⟨7⟩ = some r ∧
      r.conn = some conn ∧ (r.port : Int) = 40000 ∧ conn.ring = 7 ∧ conn.conn = ⟨4⟩ := by
  obtain ⟨r, conn, h1, _, h3, _, h5, _, _, h8, h9, _⟩ :=
    (Server_Register_result (newServer sampleTable) 1 (some ⟨[10, 0, 0, 1], 0, ""⟩) 0 ⟨7⟩).2
      { UDPAddr := some ⟨[10, 0, 0, 1], 40000, ""⟩, SVCAddr := 0, RegisterID := fun _ => none }
      ⟨[10, 0, 0, 1], 0, ""⟩ ⟨[10, 0, 0, 1], 40000, ""⟩ rfl rfl rfl (by decide) (by decide)
  exact ⟨r, conn, h1, h3, h5, h8, h9 (by decide)⟩

end Dispatcher
